import Mathlib

/-!
# xgor: a generic repository over a query builder

A shallow embedding of `exgor.go`.  The query builder (`*gorm.DB`) is a record
of the clauses added so far; the storage engine behind it (`First`, `Count`,
`Find`, `Begin`, `Commit`, `Rollback`) is an explicit collaborator.  Go strings
are Lean strings: every suffix and separator the code tests is ASCII, so the
byte-wise tests of Go and the character-wise tests below agree.
-/

set_option autoImplicit false

namespace xgor

/-! ## The parts of the Go standard library the code calls -/

namespace strings

/-- Go `strings.HasSuffix`:
`len(s) >= len(suffix) && s[len(s)-len(suffix):] == suffix`. -/
def HasSuffix (s suffix : String) : Bool :=
  decide (suffix.data.length ≤ s.data.length) &&
    decide (s.data.drop (s.data.length - suffix.data.length) = suffix.data)

/-- Go `strings.TrimSuffix`: `s` without the trailing `suffix`, or `s` itself
when it does not end in `suffix`. -/
def TrimSuffix (s suffix : String) : String :=
  if HasSuffix s suffix then ⟨s.data.take (s.data.length - suffix.data.length)⟩ else s

/-- The pieces of a character sequence between the occurrences of `sep`. -/
def splitChars (sep : Char) : List Char → List (List Char)
  | [] => [[]]
  | c :: cs =>
    if c = sep then [] :: splitChars sep cs
    else
      match splitChars sep cs with
      | [] => [[c]]
      | p :: ps => (c :: p) :: ps

/-- Go `strings.Split(s, sep)` for a one-character separator: the substrings
between the separators, `n + 1` of them when `sep` occurs `n` times. -/
def Split (s : String) (sep : Char) : List String :=
  (splitChars sep s.data).map String.mk

end strings

/-! ## The query builder -/

/-- A clause added to a query by `Joins` or `Where`, with the text and the
argument exactly as the code passes them. -/
inductive Clause (V : Type) where
  | Joins (query : String)
  | Where (query : String) (arg : V)
  deriving DecidableEq, Repr

/-- What a `*gorm.DB` chain has accumulated: the clauses in call order, the
limit, the offset, the order-by fragments and the preloaded relationships. -/
structure Statement (V : Type) where
  clauses : List (Clause V) := []
  limit : Option Int := none
  offset : Option Int := none
  orders : List String := []
  preloads : List String := []
  deriving DecidableEq, Repr

namespace Statement

variable {V : Type}

/-- Go `db.Joins(query)`: one more join clause. -/
def Joins (db : Statement V) (query : String) : Statement V :=
  { db with clauses := db.clauses ++ [Clause.Joins query] }

/-- Go `db.Where(query, arg)`: one more predicate clause. -/
def Where (db : Statement V) (query : String) (arg : V) : Statement V :=
  { db with clauses := db.clauses ++ [Clause.Where query arg] }

/-- Go `db.Limit(n)`. -/
def Limit (db : Statement V) (n : Int) : Statement V :=
  { db with limit := some n }

/-- Go `db.Offset(n)`. -/
def Offset (db : Statement V) (n : Int) : Statement V :=
  { db with offset := some n }

/-- Go `db.Order(value)`. -/
def Order (db : Statement V) (value : String) : Statement V :=
  { db with orders := db.orders ++ [value] }

/-- Go `db.Preload(relationship)`. -/
def Preload (db : Statement V) (relationship : String) : Statement V :=
  { db with preloads := db.preloads ++ [relationship] }

/-- Go `db.Scopes(fs...)`: the scope functions run in the order given. -/
def Scopes (db : Statement V) (fs : List (Statement V → Statement V)) : Statement V :=
  fs.foldl (fun d f => f d) db

end Statement

/-- The type `filterType`, a `map[string]any`, as the sequence of its entries in the
order the `range` loop visits them. -/
abbrev filterType (V : Type) := List (String × V)

/-! ## applyFilters -/

section Filters

variable {V : Type}

/-- The `switch` of `applyFilters`: the predicate for the final path segment
`col`, the suffixes tested in the order of the source. -/
def applyFilters.switch (db : Statement V) (col : String) (val : V) : Statement V :=
  if strings.HasSuffix col "__eq" then
    db.Where (strings.TrimSuffix col "__eq" ++ " = ?") val
  else if strings.HasSuffix col "__gt" then
    db.Where (strings.TrimSuffix col "__gt" ++ " > ?") val
  else if strings.HasSuffix col "__lt" then
    db.Where (strings.TrimSuffix col "__lt" ++ " < ?") val
  else if strings.HasSuffix col "__gte" then
    db.Where (strings.TrimSuffix col "__gte" ++ " >= ?") val
  else if strings.HasSuffix col "__lte" then
    db.Where (strings.TrimSuffix col "__lte" ++ " <= ?") val
  else if strings.HasSuffix col "__in" then
    db.Where (strings.TrimSuffix col "__in" ++ " IN ?") val
  else if strings.HasSuffix col "__not" then
    db.Where (strings.TrimSuffix col "__not" ++ " <> ?") val
  else if strings.HasSuffix col "__not_in" then
    db.Where (strings.TrimSuffix col "__not_in" ++ " NOT IN ?") val
  else if strings.HasSuffix col "__like" then
    db.Where (strings.TrimSuffix col "__like" ++ " LIKE ?") val
  else
    db.Where (col ++ " = ?") val

/-- The body of the `range` loop of `applyFilters` for one entry: split the key
on the dot, `Joins` for every index below the last, then the `switch` on the last
segment. -/
def applyFilters.entry (db : Statement V) (c : String) (v : V) : Statement V :=
  let relationshipPath := strings.Split c '.'
  let db := (List.range (relationshipPath.length - 1)).foldl
    (fun d i => d.Joins (relationshipPath.getD i "")) db
  let finalFieldWithCondition := relationshipPath.getD (relationshipPath.length - 1) ""
  applyFilters.switch db finalFieldWithCondition v

/-- The method `applyFilters(filters)`, the scope function it returns. -/
def applyFilters (filters : filterType V) : Statement V → Statement V :=
  fun db => filters.foldl (fun d e => applyFilters.entry d e.1 e.2) db

/-- The suffix table in the words of the specification: the nine suffixes with
the comparator each one selects, the longest suffixes first. -/
def suffixTable : List (String × String) :=
  [("__not_in", " NOT IN ?"), ("__like", " LIKE ?"), ("__gte", " >= ?"),
   ("__lte", " <= ?"), ("__not", " <> ?"), ("__eq", " = ?"), ("__gt", " > ?"),
   ("__lt", " < ?"), ("__in", " IN ?")]

/-- The predicate text the specification gives for a token: match the token
against the table longest suffix first, strip the suffix matched and attach its
comparator; equality on the whole token when no suffix matches. -/
def specPredicate (token : String) : String :=
  match suffixTable.find? (fun e => strings.HasSuffix token e.1) with
  | some e => strings.TrimSuffix token e.1 ++ e.2
  | none => token ++ " = ?"

/-- The suffixes in the order the `switch` of the source tests them, each with
the comparator of its branch. -/
def sourceTable : List (String × String) :=
  [("__eq", " = ?"), ("__gt", " > ?"), ("__lt", " < ?"), ("__gte", " >= ?"),
   ("__lte", " <= ?"), ("__in", " IN ?"), ("__not", " <> ?"),
   ("__not_in", " NOT IN ?"), ("__like", " LIKE ?")]

/-- The operations the specification gives for one filter entry: a join for
every path segment except the last, in path order, then one predicate built
from the last segment. -/
def specOperations (e : String × V) : List (Clause V) :=
  (strings.Split e.1 '.').dropLast.map Clause.Joins ++
    [Clause.Where (specPredicate ((strings.Split e.1 '.').getLastD "")) e.2]

/-- Whether a clause is a join. -/
def Clause.isJoins : Clause V → Bool
  | Clause.Joins _ => true
  | Clause.Where _ _ => false

/-- Whether a clause is a predicate. -/
def Clause.isWhere : Clause V → Bool
  | Clause.Joins _ => false
  | Clause.Where _ _ => true

end Filters

/-! ## Errors, results and the storage engine -/

/-- A Go `error` value, as far as the code tells errors apart: the
`*EntityNotFoundError` of the repository, the `gorm.ErrRecordNotFound` of the
engine, and any other
error (of the engine or of a transaction callback). -/
inductive Error where
  | EntityNotFoundError (Message : String)
  | ErrRecordNotFound
  | other (text : String)
  deriving DecidableEq, Repr

/-- How a Go call ends: it returns its results, or it panics. -/
inductive Outcome (α : Type) where
  | returned (results : α)
  | panicked (reason : String)
  deriving DecidableEq, Repr

/-- The dynamic value of the `id interface{}` argument of `GetByID`. -/
inductive Id where
  | int (n : Int)
  | uint (n : Nat)
  | string (s : String)
  deriving DecidableEq, Repr

/-- Go `string(rune(n))` for an `int`: the conversion to `rune` keeps the low 32
bits as a signed number, and the string is the one character with that code
point, or U+FFFD when it is not a valid code point. -/
def runeString (n : Int) : String :=
  let r : Int := (n + 2 ^ 31) % 2 ^ 32 - 2 ^ 31
  if 0 ≤ r ∧ Nat.isValidChar r.toNat then String.singleton (Char.ofNat r.toNat)
  else String.singleton (Char.ofNat 65533)

/-- The type `ListItems[T]`; `Items` is a pointer to a slice, `none` being nil. -/
structure ListItems (T : Type) where
  Items : Option (List T) := none
  TotalCount : Int := 0
  ResultCount : Int := 0
  deriving DecidableEq, Repr

/-- The storage engine behind a `*gorm.DB`: what `First`, `Count` and `Find`
leave in their destination and the `Error` of the handle they return. -/
structure Engine (T V : Type) where
  First : Statement V → T → Id → T × Option Error
  Count : Statement V → Int × Option Error
  Find : Statement V → List T × Option Error

/-- A `*gorm.DB`: the engine it talks to and the statement built so far. -/
structure DB (T V : Type) where
  engine : Engine T V
  stmt : Statement V := {}

/-- The type `BaseRepository[T]`. -/
structure BaseRepository (T V : Type) where
  db : DB T V
  notFoundError : Error
  relationships : List String

section Repository

variable {T V : Type}

/-- The constructor `New[T](db, notFoundError)`. -/
def New (db : DB T V) (notFoundError : Error) : BaseRepository T V :=
  { db := db, notFoundError := notFoundError, relationships := [] }

/-- The constructor `NewWithRelationships[T](db, notFoundError, relationships...)`. -/
def NewWithRelationships (db : DB T V) (notFoundError : Error)
    (relationships : List String) : BaseRepository T V :=
  { db := db, notFoundError := notFoundError, relationships := relationships }

/-- The method `r.preload()`: the handle of the repository with every configured
relationship preloaded. -/
def BaseRepository.preload (r : BaseRepository T V) : Statement V :=
  if r.relationships.length > 0 then
    r.relationships.foldl (fun db relationship => db.Preload relationship) r.db.stmt
  else r.db.stmt

/-- The method `r.paginate(limit, offset)`; a nil pointer is `none`. -/
def paginate (limit offset : Option Int) : Statement V → Statement V :=
  fun db =>
    let db := match limit with
      | some l => db.Limit l
      | none => db
    match offset with
    | some o => db.Offset o
    | none => db

/-- The method `r.orderBy(orderBy)`. -/
def orderBy (orderBy : Option String) : Statement V → Statement V :=
  fun db =>
    match orderBy with
    | some o => db.Order o
    | none => db

/-- The method `r.GetAll(limit, offset, orderBy, filters)`.  The result of `Count` is
assigned to the blank identifier, so only the total it wrote is kept. -/
def BaseRepository.GetAll (r : BaseRepository T V) (limit offset : Option Int)
    (order : Option String) (filters : filterType V) : ListItems T × Option Error :=
  let countQuery := r.preload.Scopes [applyFilters filters]
  let total := (r.db.engine.Count countQuery).1
  let query := r.preload.Scopes [paginate limit offset, applyFilters filters, orderBy order]
  let result := r.db.engine.Find query
  match result.2 with
  | some err => ({}, some err)
  | none =>
    if result.1.length = 0 then
      ({}, some (Error.EntityNotFoundError "No entities found"))
    else
      ({ Items := some result.1, TotalCount := total, ResultCount := result.1.length }, none)

/-- The method `r.GetWithCustomFilters(filters)`.  The expression `&(*entity.Items)[0]`
panics on a nil `Items` and on an empty slice. -/
def BaseRepository.GetWithCustomFilters (r : BaseRepository T V) (filters : filterType V) :
    Outcome (Option T × Option Error) :=
  let limit : Int := 1
  let (entity, err) := r.GetAll (some limit) none none filters
  if err ≠ none ∨ entity.TotalCount = 0 then
    Outcome.returned (none, some (Error.EntityNotFoundError "No entity found"))
  else
    match entity.Items with
    | none => Outcome.panicked "invalid memory address or nil pointer dereference"
    | some [] => Outcome.panicked "index out of range [0] with length 0"
    | some (first :: _) => Outcome.returned (some first, none)

/-- The method `r.GetByID(id)`.  `new(T)` is the zero value `default`; the type assertion
`id.(int)` panics when the dynamic type of `id` is not `int`. -/
def BaseRepository.GetByID [Inhabited T] (r : BaseRepository T V) (id : Id) :
    Outcome (Option T × Option Error) :=
  let (entity, resultError) := r.db.engine.First r.db.stmt default id
  match resultError with
  | some err =>
    if err = Error.ErrRecordNotFound then
      match id with
      | Id.int n =>
        Outcome.returned
          (none, some (Error.EntityNotFoundError ("No entity with id " ++ runeString n ++ " found")))
      | _ => Outcome.panicked "interface conversion: interface is not int"
    else Outcome.returned (some entity, none)
  | none => Outcome.returned (some entity, none)

end Repository

/-! ## Transactions -/

/-- What a transaction callback does: it returns an error (or nil), or panics. -/
inductive FnResult where
  | returns (err : Option Error)
  | panics (value : String)
  deriving DecidableEq, Repr

/-- The transaction capability of the engine over a database state `S` and a
transaction handle `X`: `Begin` gives the handle and its `Error`, `Commit` ends the
transaction and gives its `Error`, `Rollback` ends it. -/
structure TxEngine (S X : Type) where
  Begin : S → S × X × Option Error
  Commit : S → X → S × Option Error
  Rollback : S → X → S

/-- The method `r.PerformTransaction(fn)`.  The callback works on the transaction handle.
The deferred function calls `recover()`: after a panic it rolls back and does
not panic again, so the function returns the zero value of its unnamed result,
a nil error; without a panic `recover()` is nil and it does nothing. -/
def PerformTransaction {S X : Type} (db : TxEngine S X) (fn : X → X × FnResult) (s : S) :
    S × Outcome (Option Error) :=
  match db.Begin s with
  | (s, _, some txError) => (s, Outcome.returned (some txError))
  | (s, tx, none) =>
    match fn tx with
    | (tx, FnResult.panics _) => (db.Rollback s tx, Outcome.returned none)
    | (tx, FnResult.returns (some err)) => (db.Rollback s tx, Outcome.returned (some err))
    | (tx, FnResult.returns none) =>
      let committed := db.Commit s tx
      (committed.1, Outcome.returned committed.2)

/-! ## A reference engine: a table in memory -/

/-- SQL `LIMIT` and `OFFSET` on a result: a positive offset skips that many
rows, a limit that is not negative keeps at most that many. -/
def Statement.page {V α : Type} (stmt : Statement V) (l : List α) : List α :=
  let l := match stmt.offset with
    | some o => if 0 < o then l.drop o.toNat else l
    | none => l
  match stmt.limit with
  | some n => if 0 ≤ n then l.take n.toNat else l
  | none => l

/-- Go `strconv.Atoi`: an optional sign, then decimal digits only, at least
one, for a value in the range of a 64-bit `int`; `none` is its error. -/
def strconv.Atoi (s : String) : Option Int :=
  let parts : Bool × List Char := match s.data with
    | '+' :: rest => (false, rest)
    | '-' :: rest => (true, rest)
    | all => (false, all)
  if parts.2.isEmpty || !parts.2.all Char.isDigit then none
  else
    let magnitude : Int := parts.2.foldl (fun acc c => acc * 10 + ((c.toNat : Int) - 48)) 0
    let value : Int := if parts.1 then -magnitude else magnitude
    if -(2 ^ 63) ≤ value ∧ value < 2 ^ 63 then some value else none

/-- A table: its rows, which row has which primary key, how a raw SQL condition
is read (the rows it selects, or the error of a condition that is not valid),
which rows satisfy a list of join and where clauses, how an order-by sorts, and
the error (if any) each kind of query fails with. -/
structure Table (T V : Type) where
  rows : List T
  hasKey : T → Id → Bool
  rawSQL : String → Except Error (T → Bool)
  sat : List (Clause V) → T → Bool
  sort : List String → List T → List T
  sort_perm : ∀ o l, (sort o l).Perm l
  firstErr : Option Error := none
  countErr : Option Error := none
  findErr : Option Error := none

/-- The rows of the table that satisfy the clauses of a statement. -/
def Table.matching {T V : Type} (tbl : Table T V) (stmt : Statement V) : List T :=
  tbl.rows.filter (tbl.sat stmt.clauses)

/-- The first row of the statement that a condition selects, left in the
destination, or `gorm.ErrRecordNotFound` with the destination as it was. -/
def Table.firstWhere {T V : Type} (tbl : Table T V) (stmt : Statement V) (dest : T)
    (condition : T → Bool) : T × Option Error :=
  match (tbl.matching stmt).find? condition with
  | some row => (row, none)
  | none => (dest, some Error.ErrRecordNotFound)

/-- The engine that answers from a table.  `First` reads its condition as gorm
does: a number, and a string that `strconv.Atoi` accepts, is the primary key;
the empty string is no condition; any other string is a raw SQL condition, whose
error, when it is not valid, is the error of the query.  `Count` is the one-row
result of `SELECT count(*)`, to which the limit and offset of the statement
apply. -/
def Table.engine {T V : Type} (tbl : Table T V) : Engine T V where
  First stmt dest id :=
    match tbl.firstErr with
    | some e => (dest, some e)
    | none =>
      match id with
      | Id.string s =>
        if (strconv.Atoi s).isSome then tbl.firstWhere stmt dest (fun row => tbl.hasKey row id)
        else if s = "" then tbl.firstWhere stmt dest (fun _ => true)
        else
          match tbl.rawSQL s with
          | Except.error e => (dest, some e)
          | Except.ok condition => tbl.firstWhere stmt dest condition
      | _ => tbl.firstWhere stmt dest (fun row => tbl.hasKey row id)
  Count stmt :=
    match tbl.countErr with
    | some e => (0, some e)
    | none =>
      match stmt.page [((tbl.matching stmt).length : Int)] with
      | n :: _ => (n, none)
      | [] => (0, none)
  Find stmt :=
    match tbl.findErr with
    | some e => ([], some e)
    | none => (stmt.page (tbl.sort stmt.orders (tbl.matching stmt)), none)

/-- Go `gorm.Open`: a fresh handle on an engine, nothing built yet. -/
def Open {T V : Type} (engine : Engine T V) : DB T V :=
  { engine := engine, stmt := {} }

/-- A call of the transaction capability. -/
inductive TxCall where
  | Begin
  | Commit
  | Rollback
  deriving DecidableEq, Repr

/-- A database with snapshot transactions: the committed rows and the calls
made so far. -/
structure Snapshot (T : Type) where
  rows : List T
  calls : List TxCall
  deriving DecidableEq, Repr

/-- The transactions of a `Snapshot`: the handle is a working copy of the rows,
a successful `Commit` installs it, `Rollback` drops it.  `beginErr` and
`commitErr` are the errors `Begin` and `Commit` fail with, if any. -/
def Snapshot.engine {T : Type} (beginErr commitErr : Option Error) :
    TxEngine (Snapshot T) (List T) where
  Begin s := ({ s with calls := s.calls ++ [TxCall.Begin] }, s.rows, beginErr)
  Commit s tx :=
    match commitErr with
    | some e => ({ s with calls := s.calls ++ [TxCall.Commit] }, some e)
    | none => ({ rows := tx, calls := s.calls ++ [TxCall.Commit] }, none)
  Rollback s _ := { s with calls := s.calls ++ [TxCall.Rollback] }

/-- The rows of a table that satisfy a filter map. -/
def Table.satisfying {T V : Type} (tbl : Table T V) (filters : filterType V) : List T :=
  tbl.matching (applyFilters filters {})

/-- The page of the rows satisfying a filter map that a limit, an offset and an
order-by select. -/
def Table.pageOf {T V : Type} (tbl : Table T V) (limit offset : Option Int)
    (order : Option String) (filters : filterType V) : List T :=
  (paginate limit offset ({} : Statement V)).page
    (tbl.sort (orderBy order ({} : Statement V)).orders (tbl.satisfying filters))

/-- A table of two records, 1 and 2, each its own primary key; no raw SQL
condition names a column of it, every record satisfies every clause and an
order-by leaves the rows as stored. -/
def twoRows : Table Nat String where
  rows := [1, 2]
  hasKey row id :=
    match id with
    | Id.int n => decide (n = (row : Int))
    | Id.uint n => decide (n = row)
    | Id.string s => decide (strconv.Atoi s = some (row : Int))
  rawSQL _ := Except.error (Error.other "no such column")
  sat _ _ := true
  sort _ l := l
  sort_perm _ l := List.Perm.refl l

/-- The table `twoRows` with a `Count` that fails. -/
def twoRowsCountFails : Table Nat String :=
  { twoRows with countErr := some (Error.other "database is locked") }

/-- The table `twoRows` with a `Find` that fails. -/
def twoRowsFindFails : Table Nat String :=
  { twoRows with findErr := some (Error.other "database is locked") }

/-- A table without records. -/
def noRows : Table Nat String :=
  { twoRows with rows := [] }

/-! ## Lemmas on strings and on the suffix tables -/

theorem strings.HasSuffix_iff (s suf : String) :
    strings.HasSuffix s suf = true ↔ suf.data <:+ s.data := by
  unfold strings.HasSuffix
  rw [Bool.and_eq_true, decide_eq_true_iff, decide_eq_true_iff]
  constructor
  · rintro ⟨_, h⟩
    rw [← h]
    exact List.drop_suffix _ _
  · intro h
    exact ⟨h.length_le, (List.suffix_iff_eq_drop.mp h).symm⟩

theorem strings.HasSuffix_append (c s : String) : strings.HasSuffix (c ++ s) s = true := by
  rw [strings.HasSuffix_iff, String.data_append]
  exact List.suffix_append _ _

theorem strings.TrimSuffix_append (c s : String) : strings.TrimSuffix (c ++ s) s = c := by
  unfold strings.TrimSuffix
  rw [if_pos (strings.HasSuffix_append c s)]
  apply String.ext
  simp [String.data_append]

theorem strings.splitChars_ne_nil (sep : Char) (l : List Char) :
    strings.splitChars sep l ≠ [] := by
  cases l with
  | nil => simp [strings.splitChars]
  | cons c cs =>
    unfold strings.splitChars
    split_ifs
    · simp
    · split <;> simp

theorem strings.length_splitChars (sep : Char) (l : List Char) :
    (strings.splitChars sep l).length = l.count sep + 1 := by
  induction l with
  | nil => simp [strings.splitChars]
  | cons c cs ih =>
    unfold strings.splitChars
    by_cases h : c = sep
    · subst h
      simp [ih]
    · rw [if_neg h]
      have hne := strings.splitChars_ne_nil sep cs
      cases hs : strings.splitChars sep cs with
      | nil => exact absurd hs hne
      | cons p ps =>
        rw [hs] at ih
        simp only [List.length_cons] at ih ⊢
        rw [List.count_cons_of_ne (Ne.symm h)]
        exact ih

theorem strings.length_Split (s : String) (sep : Char) :
    (strings.Split s sep).length = s.data.count sep + 1 := by
  simp [strings.Split, strings.length_splitChars]

/-- No suffix of the table is a suffix of another one. -/
theorem suffixTable_antichain :
    ∀ a ∈ suffixTable, ∀ b ∈ suffixTable, a.1.data <:+ b.1.data → a = b := by
  decide

/-- A token ends in at most one suffix of the table. -/
theorem suffixTable_unique (token : String) :
    ∀ a ∈ suffixTable, ∀ b ∈ suffixTable,
      strings.HasSuffix token a.1 = true → strings.HasSuffix token b.1 = true → a = b := by
  intro a ha b hb h1 h2
  rw [strings.HasSuffix_iff] at h1 h2
  rcases List.suffix_or_suffix_of_suffix h1 h2 with h | h
  · exact suffixTable_antichain a ha b hb h
  · exact (suffixTable_antichain b hb a ha h).symm

theorem find?_of_unique {α : Type} (p : α → Bool) (L : List α) (e : α)
    (hu : ∀ a ∈ L, ∀ b ∈ L, p a = true → p b = true → a = b)
    (he : e ∈ L) (hp : p e = true) : L.find? p = some e := by
  cases h : L.find? p with
  | none =>
    have := List.find?_eq_none.mp h e he
    simp [hp] at this
  | some x =>
    have hx := List.find?_some h
    have hm := List.mem_of_find?_eq_some h
    rw [hu x hm e he hx hp]

theorem sourceTable_mem_iff (e : String × String) : e ∈ sourceTable ↔ e ∈ suffixTable := by
  simp only [sourceTable, suffixTable, List.mem_cons, List.mem_singleton, List.not_mem_nil,
    or_false]
  tauto

/-- Testing the suffixes in the order of the source finds the same entry as
testing them longest first. -/
theorem find?_sourceTable (token : String) :
    sourceTable.find? (fun e => strings.HasSuffix token e.1) =
      suffixTable.find? (fun e => strings.HasSuffix token e.1) := by
  cases h : suffixTable.find? (fun e => strings.HasSuffix token e.1) with
  | none =>
    rw [List.find?_eq_none] at h ⊢
    intro x hx
    exact h x ((sourceTable_mem_iff x).mp hx)
  | some e =>
    have hp := List.find?_some h
    have hm := List.mem_of_find?_eq_some h
    refine find?_of_unique _ _ e ?_ ((sourceTable_mem_iff e).mpr hm) hp
    intro a ha b hb
    exact suffixTable_unique token a ((sourceTable_mem_iff a).mp ha) b
      ((sourceTable_mem_iff b).mp hb)

/-- The `switch` is a first-match search of the suffixes in source order. -/
theorem switch_eq_sourceTable {V : Type} (db : Statement V) (col : String) (val : V) :
    applyFilters.switch db col val =
      match sourceTable.find? (fun e => strings.HasSuffix col e.1) with
      | some e => db.Where (strings.TrimSuffix col e.1 ++ e.2) val
      | none => db.Where (col ++ " = ?") val := by
  simp only [applyFilters.switch, sourceTable, List.find?]
  split_ifs <;> simp_all

/-- The `switch` adds the predicate of the specification. -/
theorem switch_eq_specPredicate {V : Type} (db : Statement V) (col : String) (val : V) :
    applyFilters.switch db col val = db.Where (specPredicate col) val := by
  rw [switch_eq_sourceTable, find?_sourceTable, specPredicate]
  cases suffixTable.find? (fun e => strings.HasSuffix col e.1) <;> rfl

theorem specPredicate_append (c s op : String) (h : (s, op) ∈ suffixTable) :
    specPredicate (c ++ s) = c ++ op := by
  have hf : suffixTable.find? (fun e => strings.HasSuffix (c ++ s) e.1) = some (s, op) :=
    find?_of_unique _ _ (s, op) (suffixTable_unique (c ++ s)) h (strings.HasSuffix_append c s)
  rw [specPredicate, hf]
  simp only
  rw [strings.TrimSuffix_append]

/-! ## The filter compiler -/

theorem getD_length_sub_one {α : Type} (l : List α) (d : α) :
    l.getD (l.length - 1) d = l.getLastD d := by
  rw [List.getD_eq_getElem?_getD, List.getLastD_eq_getLast?, List.getLast?_eq_getElem?]

theorem joins_range {V : Type} (path : List String) (n : Nat) (hn : n ≤ path.length)
    (db : Statement V) :
    (List.range n).foldl (fun d i => d.Joins (path.getD i "")) db =
      { db with clauses := db.clauses ++ (path.take n).map Clause.Joins } := by
  induction n with
  | zero => simp
  | succ n ih =>
    have hlt : n < path.length := hn
    rw [List.range_succ, List.foldl_append, ih (Nat.le_of_lt hlt)]
    have htake : List.take (n + 1) path = List.take n path ++ [path.getD n ""] := by
      rw [List.take_succ, List.getD_eq_getElem?_getD, List.getElem?_eq_getElem hlt]
      rfl
    simp only [List.foldl_cons, List.foldl_nil, Statement.Joins]
    rw [htake, List.map_append, List.append_assoc]
    rfl

/-- One pass of the loop body adds the operations of the specification for
that entry, and nothing else changes. -/
theorem entry_eq_specOperations {V : Type} (db : Statement V) (c : String) (v : V) :
    applyFilters.entry db c v = { db with clauses := db.clauses ++ specOperations (c, v) } := by
  unfold applyFilters.entry
  simp only
  rw [joins_range _ _ (Nat.sub_le _ _), switch_eq_specPredicate, getD_length_sub_one,
    ← List.dropLast_eq_take]
  simp [Statement.Where, specOperations]

theorem applyFilters_eq_flatMap {V : Type} (filters : filterType V) (db : Statement V) :
    applyFilters filters db =
      { db with clauses := db.clauses ++ filters.flatMap specOperations } := by
  unfold applyFilters
  induction filters generalizing db with
  | nil => simp
  | cons e es ih =>
    rw [List.foldl_cons, ih, entry_eq_specOperations]
    simp [List.flatMap_cons]

theorem countP_isWhere_map_Joins {V : Type} (l : List String) :
    (l.map (Clause.Joins : String → Clause V)).countP Clause.isWhere = 0 := by
  induction l with
  | nil => rfl
  | cons a as ih => simp [Clause.isWhere, ih]

theorem countP_isJoins_map_Joins {V : Type} (l : List String) :
    (l.map (Clause.Joins : String → Clause V)).countP Clause.isJoins = l.length := by
  induction l with
  | nil => rfl
  | cons a as ih => simp [Clause.isJoins, ih]

theorem countP_isWhere_specOperations {V : Type} (e : String × V) :
    (specOperations e).countP Clause.isWhere = 1 := by
  rw [specOperations, List.countP_append, countP_isWhere_map_Joins]
  simp [Clause.isWhere]

theorem countP_isJoins_specOperations {V : Type} (e : String × V) :
    (specOperations e).countP Clause.isJoins = e.1.data.count '.' := by
  rw [specOperations, List.countP_append, countP_isJoins_map_Joins, List.length_dropLast,
    strings.length_Split]
  simp [Clause.isJoins]

theorem countP_isWhere_flatMap {V : Type} (filters : filterType V) :
    (filters.flatMap specOperations).countP Clause.isWhere = filters.length := by
  induction filters with
  | nil => rfl
  | cons e es ih =>
    rw [List.flatMap_cons, List.countP_append, countP_isWhere_specOperations, ih,
      List.length_cons, Nat.add_comm]

theorem countP_isJoins_flatMap {V : Type} (filters : filterType V) :
    (filters.flatMap specOperations).countP Clause.isJoins =
      (filters.map (fun e => e.1.data.count '.')).sum := by
  induction filters with
  | nil => rfl
  | cons e es ih =>
    rw [List.flatMap_cons, List.countP_append, countP_isJoins_specOperations, ih,
      List.map_cons, List.sum_cons]

/-- C1: the switch of applyFilters follows the suffix table of the specification.
For every column name c (whatever it contains) and every value, the final
segment c followed by one of the nine suffixes adds exactly one predicate, on
column c, with the comparator of that suffix and the value unchanged; a segment
ending in none of the nine suffixes adds an equality on the whole segment; and
for every segment the order of the tests in the source gives the predicate that
matching the longest suffix first gives. -/
theorem applyFilters_switch_suffix_table {V : Type} (db : Statement V) (c : String) (v : V) :
    applyFilters.switch db (c ++ "__eq") v =
        { db with clauses := db.clauses ++ [Clause.Where (c ++ " = ?") v] } ∧
    applyFilters.switch db (c ++ "__gt") v =
        { db with clauses := db.clauses ++ [Clause.Where (c ++ " > ?") v] } ∧
    applyFilters.switch db (c ++ "__lt") v =
        { db with clauses := db.clauses ++ [Clause.Where (c ++ " < ?") v] } ∧
    applyFilters.switch db (c ++ "__gte") v =
        { db with clauses := db.clauses ++ [Clause.Where (c ++ " >= ?") v] } ∧
    applyFilters.switch db (c ++ "__lte") v =
        { db with clauses := db.clauses ++ [Clause.Where (c ++ " <= ?") v] } ∧
    applyFilters.switch db (c ++ "__in") v =
        { db with clauses := db.clauses ++ [Clause.Where (c ++ " IN ?") v] } ∧
    applyFilters.switch db (c ++ "__not") v =
        { db with clauses := db.clauses ++ [Clause.Where (c ++ " <> ?") v] } ∧
    applyFilters.switch db (c ++ "__not_in") v =
        { db with clauses := db.clauses ++ [Clause.Where (c ++ " NOT IN ?") v] } ∧
    applyFilters.switch db (c ++ "__like") v =
        { db with clauses := db.clauses ++ [Clause.Where (c ++ " LIKE ?") v] } ∧
    (∀ segment : String,
      (∀ s ∈ ["__eq", "__gt", "__lt", "__gte", "__lte", "__in", "__not", "__not_in", "__like"],
        strings.HasSuffix segment s = false) →
      applyFilters.switch db segment v =
        { db with clauses := db.clauses ++ [Clause.Where (segment ++ " = ?") v] }) ∧
    (∀ segment : String,
      applyFilters.switch db segment v =
        { db with clauses := db.clauses ++ [Clause.Where (specPredicate segment) v] }) := by
  refine ⟨?_, ?_, ?_, ?_, ?_, ?_, ?_, ?_, ?_, ?_, ?_⟩
  · rw [switch_eq_specPredicate, specPredicate_append c "__eq" " = ?" (by decide)]; rfl
  · rw [switch_eq_specPredicate, specPredicate_append c "__gt" " > ?" (by decide)]; rfl
  · rw [switch_eq_specPredicate, specPredicate_append c "__lt" " < ?" (by decide)]; rfl
  · rw [switch_eq_specPredicate, specPredicate_append c "__gte" " >= ?" (by decide)]; rfl
  · rw [switch_eq_specPredicate, specPredicate_append c "__lte" " <= ?" (by decide)]; rfl
  · rw [switch_eq_specPredicate, specPredicate_append c "__in" " IN ?" (by decide)]; rfl
  · rw [switch_eq_specPredicate, specPredicate_append c "__not" " <> ?" (by decide)]; rfl
  · rw [switch_eq_specPredicate, specPredicate_append c "__not_in" " NOT IN ?" (by decide)]; rfl
  · rw [switch_eq_specPredicate, specPredicate_append c "__like" " LIKE ?" (by decide)]; rfl
  · intro segment h
    have hnone : suffixTable.find? (fun e => strings.HasSuffix segment e.1) = none := by
      rw [List.find?_eq_none]
      intro e he
      have hs : e.1 ∈ ["__eq", "__gt", "__lt", "__gte", "__lte", "__in", "__not", "__not_in",
          "__like"] := by
        simp only [suffixTable, List.mem_cons, List.mem_singleton, List.not_mem_nil,
          or_false] at he
        rcases he with h | h | h | h | h | h | h | h | h <;> subst h <;> decide
      simp [h e.1 hs]
    rw [switch_eq_specPredicate, specPredicate, hnone]
    rfl
  · intro segment
    rw [switch_eq_specPredicate]
    rfl

/-- C1, at the column age with the value 10: the tokens age__gte and age__not_in. -/
theorem applyFilters_switch_suffix_table_witness :
    applyFilters.switch ({} : Statement String) ("age" ++ "__gte") "10" =
        { clauses := [Clause.Where ("age" ++ " >= ?") "10"] } ∧
    applyFilters.switch ({} : Statement String) ("age" ++ "__not_in") "10" =
        { clauses := [Clause.Where ("age" ++ " NOT IN ?") "10"] } :=
  ⟨(applyFilters_switch_suffix_table {} "age" "10").2.2.2.1,
   (applyFilters_switch_suffix_table {} "age" "10").2.2.2.2.2.2.2.1⟩

/-- C2: for every filter map, given as its entries in iteration order,
applyFilters adds to the query, entry by entry, a join for each path segment
but the last, in path order, and then one predicate built from the last
segment, and changes nothing else; so there are as many predicates as entries
and as many joins as dots in the keys, and an empty (or nil) map adds no
operation at all. -/
theorem applyFilters_operations {V : Type} (filters : filterType V) (db : Statement V) :
    applyFilters filters db =
        { db with clauses := db.clauses ++ filters.flatMap specOperations } ∧
    (filters.flatMap specOperations).countP Clause.isWhere = filters.length ∧
    (filters.flatMap specOperations).countP Clause.isJoins =
        (filters.map (fun e => e.1.data.count '.')).sum ∧
    applyFilters ([] : filterType V) db = db :=
  ⟨applyFilters_eq_flatMap filters db, countP_isWhere_flatMap filters,
   countP_isJoins_flatMap filters, rfl⟩

/-- C2, on a map with the keys owner.address.city__like and age__gt: two joins,
then a predicate, then the predicate of the second entry. -/
theorem applyFilters_operations_witness :
    applyFilters [("owner.address.city__like", "M%"), ("age__gt", "10")]
        ({} : Statement String) =
      { clauses := [Clause.Joins "owner", Clause.Joins "address",
          Clause.Where "city LIKE ?" "M%", Clause.Where "age > ?" "10"] } := by
  have h := (applyFilters_operations [("owner.address.city__like", "M%"), ("age__gt", "10")]
    ({} : Statement String)).1
  rw [h]
  decide

/-! ## The queries of GetAll -/

theorem foldl_Preload {V : Type} (rels : List String) (db : Statement V) :
    rels.foldl (fun d relationship => d.Preload relationship) db =
      { db with preloads := db.preloads ++ rels } := by
  induction rels generalizing db with
  | nil => simp
  | cons a as ih =>
    rw [List.foldl_cons, ih]
    simp [Statement.Preload]

theorem preload_Open {T V : Type} (e : Engine T V) (nf : Error) (rels : List String) :
    (NewWithRelationships (Open e) nf rels).preload = ({ preloads := rels } : Statement V) := by
  unfold BaseRepository.preload
  rw [foldl_Preload]
  cases rels with
  | nil => simp [NewWithRelationships, Open]
  | cons a as => simp [NewWithRelationships, Open]

theorem countQuery_eq {V : Type} (rels : List String) (filters : filterType V) :
    ({ preloads := rels } : Statement V).Scopes [applyFilters filters] =
      { clauses := filters.flatMap specOperations, preloads := rels } := by
  simp [Statement.Scopes, applyFilters_eq_flatMap]

theorem query_eq {V : Type} (rels : List String) (limit offset : Option Int)
    (order : Option String) (filters : filterType V) :
    ({ preloads := rels } : Statement V).Scopes
        [paginate limit offset, applyFilters filters, orderBy order] =
      { clauses := filters.flatMap specOperations, limit := limit, offset := offset,
        orders := order.toList, preloads := rels } := by
  cases limit <;> cases offset <;> cases order <;>
    simp [Statement.Scopes, applyFilters_eq_flatMap, paginate, orderBy, Statement.Limit,
      Statement.Offset, Statement.Order]

theorem satisfying_eq {T V : Type} (tbl : Table T V) (filters : filterType V) :
    tbl.satisfying filters = tbl.rows.filter (tbl.sat (filters.flatMap specOperations)) := by
  simp [Table.satisfying, Table.matching, applyFilters_eq_flatMap]

theorem pageOf_eq {T V : Type} (tbl : Table T V) (limit offset : Option Int)
    (order : Option String) (filters : filterType V) :
    tbl.pageOf limit offset order filters =
      ({ limit := limit, offset := offset } : Statement V).page
        (tbl.sort order.toList (tbl.satisfying filters)) := by
  cases limit <;> cases offset <;> cases order <;>
    simp [Table.pageOf, paginate, orderBy, Statement.Limit, Statement.Offset,
      Statement.Order, Statement.page]

theorem Statement.length_page_le {V α : Type} (stmt : Statement V) (l : List α) :
    (stmt.page l).length ≤ l.length := by
  unfold Statement.page
  have h1 : ∀ o : Option Int, (match o with
      | some o => if 0 < o then l.drop o.toNat else l
      | none => l).length ≤ l.length := by
    intro o
    cases o with
    | none => exact Nat.le_refl _
    | some o =>
      simp only
      split_ifs
      · simp
      · exact Nat.le_refl _
  have h2 : ∀ (n : Option Int) (m : List α), (match n with
      | some n => if 0 ≤ n then m.take n.toNat else m
      | none => m).length ≤ m.length := by
    intro n m
    cases n with
    | none => exact Nat.le_refl _
    | some n =>
      simp only
      split_ifs
      · simp
      · exact Nat.le_refl _
  exact Nat.le_trans (h2 _ _) (h1 _)

theorem length_pageOf_le {T V : Type} (tbl : Table T V) (limit offset : Option Int)
    (order : Option String) (filters : filterType V) :
    (tbl.pageOf limit offset order filters).length ≤ (tbl.satisfying filters).length := by
  unfold Table.pageOf
  exact Nat.le_trans (Statement.length_page_le _ _) (Nat.le_of_eq (tbl.sort_perm _ _).length_eq)

/-- What GetAll returns on a fresh handle over a table. -/
theorem GetAll_table {T V : Type} (tbl : Table T V) (nf : Error) (rels : List String)
    (limit offset : Option Int) (order : Option String) (filters : filterType V) :
    (NewWithRelationships (Open tbl.engine) nf rels).GetAll limit offset order filters =
      match tbl.findErr with
      | some e => ({}, some e)
      | none =>
        if (tbl.pageOf limit offset order filters).length = 0 then
          ({}, some (Error.EntityNotFoundError "No entities found"))
        else
          ({ Items := some (tbl.pageOf limit offset order filters),
             TotalCount := match tbl.countErr with
               | some _ => 0
               | none => ((tbl.satisfying filters).length : Int),
             ResultCount := ((tbl.pageOf limit offset order filters).length : Int) }, none) := by
  unfold BaseRepository.GetAll
  simp only [preload_Open, countQuery_eq, query_eq]
  have hFind : (NewWithRelationships (Open tbl.engine) nf rels).db.engine.Find
      { clauses := filters.flatMap specOperations, limit := limit, offset := offset,
        orders := order.toList, preloads := rels } =
      match tbl.findErr with
      | some e => ([], some e)
      | none => (tbl.pageOf limit offset order filters, none) := by
    rw [pageOf_eq, satisfying_eq]
    rfl
  have hCount : ((NewWithRelationships (Open tbl.engine) nf rels).db.engine.Count
      { clauses := filters.flatMap specOperations, preloads := rels }).1 =
      match tbl.countErr with
      | some _ => 0
      | none => ((tbl.satisfying filters).length : Int) := by
    rw [satisfying_eq]
    simp only [NewWithRelationships, Open, Table.engine, Table.matching, Statement.page]
    cases tbl.countErr <;> rfl
  rw [hFind, hCount]
  cases tbl.findErr <;> rfl

/-- GetAll either fails with the zero page, or succeeds with a page that is
not empty and whose count is its length. -/
theorem GetAll_cases {T V : Type} (r : BaseRepository T V) (limit offset : Option Int)
    (order : Option String) (filters : filterType V) :
    (∃ e, r.GetAll limit offset order filters = ({}, some e)) ∨
    (∃ first rest total, r.GetAll limit offset order filters =
      ({ Items := some (first :: rest), TotalCount := total,
         ResultCount := ((first :: rest).length : Int) }, none)) := by
  unfold BaseRepository.GetAll
  simp only
  generalize r.db.engine.Find _ = result
  obtain ⟨rows, err⟩ := result
  cases err with
  | some e => exact Or.inl ⟨e, rfl⟩
  | none =>
    cases rows with
    | nil => exact Or.inl ⟨_, rfl⟩
    | cons a l => exact Or.inr ⟨a, l, _, rfl⟩

/-- The error of GetAll is decided by Find alone. -/
theorem GetAll_error {T V : Type} (r : BaseRepository T V) (limit offset : Option Int)
    (order : Option String) (filters : filterType V) :
    (r.GetAll limit offset order filters).2 =
      match (r.db.engine.Find
          (r.preload.Scopes [paginate limit offset, applyFilters filters, orderBy order])).2 with
      | some e => some e
      | none =>
        if (r.db.engine.Find (r.preload.Scopes
            [paginate limit offset, applyFilters filters, orderBy order])).1.length = 0
        then some (Error.EntityNotFoundError "No entities found") else none := by
  unfold BaseRepository.GetAll
  simp only
  generalize r.db.engine.Find _ = result
  obtain ⟨rows, err⟩ := result
  cases err with
  | some e => rfl
  | none =>
    cases rows with
    | nil => rfl
    | cons a l => rfl

/-! ## Errors of the storage engine -/

/-- C3, as stated, fails: on a table whose Find fails with an error that is not
record-not-found, GetWithCustomFilters reports an EntityNotFoundError in its
place; and on a table whose Count fails, GetAll returns a nil error. -/
theorem storage_error_not_propagated :
    (∀ stmt : Statement String,
      (twoRowsFindFails.engine.Find stmt).2 = some (Error.other "database is locked")) ∧
    (New (Open twoRowsFindFails.engine) (Error.other "entity not found")).GetWithCustomFilters
        [("ulid", "123")] =
      Outcome.returned (none, some (Error.EntityNotFoundError "No entity found")) ∧
    (∀ stmt : Statement String,
      (twoRowsCountFails.engine.Count stmt).2 = some (Error.other "database is locked")) ∧
    ((New (Open twoRowsCountFails.engine) (Error.other "entity not found")).GetAll
        none none none []).2 = none := by
  refine ⟨fun _ => rfl, ?_, fun _ => rfl, ?_⟩
  · decide
  · decide

/-- C3, amended: for every engine, the error of GetAll is decided by Find alone.
An error of Find is returned unmodified with the zero page; an error of Count is
discarded, so that GetAll succeeds whenever Find succeeds with a page that is
not empty; and GetWithCustomFilters reports every error of Find as the
EntityNotFoundError with the message No entity found, never as a nil error. -/
theorem storage_errors_of_GetAll {T V : Type} (r : BaseRepository T V)
    (limit offset : Option Int) (order : Option String) (filters : filterType V) :
    (∀ e, (r.db.engine.Find (r.preload.Scopes
          [paginate limit offset, applyFilters filters, orderBy order])).2 = some e →
      r.GetAll limit offset order filters = ({}, some e)) ∧
    ((r.db.engine.Find (r.preload.Scopes
          [paginate limit offset, applyFilters filters, orderBy order])).2 = none →
      (r.db.engine.Find (r.preload.Scopes
          [paginate limit offset, applyFilters filters, orderBy order])).1 ≠ [] →
      (r.GetAll limit offset order filters).2 = none) ∧
    (∀ e, (r.db.engine.Find (r.preload.Scopes
          [paginate (some 1) none, applyFilters filters, orderBy none])).2 = some e →
      r.GetWithCustomFilters filters =
        Outcome.returned (none, some (Error.EntityNotFoundError "No entity found"))) := by
  refine ⟨?_, ?_, ?_⟩
  · intro e h
    unfold BaseRepository.GetAll
    simp only [h]
  · intro h hne
    rw [GetAll_error, h]
    simp only
    rw [if_neg]
    simpa using hne
  · intro e h
    have hall : r.GetAll (some 1) none none filters = ({}, some e) := by
      unfold BaseRepository.GetAll
      simp only [h]
    unfold BaseRepository.GetWithCustomFilters
    simp only [hall]
    simp

/-- C3, amended, on the table whose Find fails. -/
theorem storage_errors_of_GetAll_witness :
    (New (Open twoRowsFindFails.engine) (Error.other "entity not found")).GetAll
        (some 1) none none [("ulid", "123")] =
      ({}, some (Error.other "database is locked")) :=
  (storage_errors_of_GetAll (New (Open twoRowsFindFails.engine) (Error.other "entity not found"))
    (some 1) none none [("ulid", "123")]).1 (Error.other "database is locked") rfl

/-! ## The counts of a page -/

/-- C4, as stated, fails: on a table of two records whose Count fails, GetAll
succeeds with two items and a total count of zero. -/
theorem GetAll_total_below_result :
    (New (Open twoRowsCountFails.engine) (Error.other "entity not found")).GetAll
        none none none [] =
      ({ Items := some [1, 2], TotalCount := 0, ResultCount := 2 }, none) ∧
    ¬ ((2 : Int) ≤ 0) ∧
    (twoRowsCountFails.satisfying []).length = 2 := by
  decide

/-- C4, amended: for every successful GetAll call on a table whose Count does
not fail, whatever the limit, offset, order and filters, ResultCount is the length
of Items, ResultCount is at most TotalCount, and TotalCount is the number of
records satisfying the filters, no limit or offset applied; and with N records
satisfying the filters, N at least 1, the limit 1 and the offset 0 give a
successful page with ResultCount 1 and TotalCount N. -/
theorem GetAll_counts {T V : Type} (tbl : Table T V) (nf : Error) (rels : List String)
    (limit offset : Option Int) (order : Option String) (filters : filterType V)
    (items : ListItems T) (hcount : tbl.countErr = none)
    (h : (NewWithRelationships (Open tbl.engine) nf rels).GetAll limit offset order filters =
      (items, none)) :
    (∃ l, items.Items = some l ∧ items.ResultCount = (l.length : Int)) ∧
    items.ResultCount ≤ items.TotalCount ∧
    items.TotalCount = ((tbl.satisfying filters).length : Int) ∧
    (tbl.findErr = none → 1 ≤ (tbl.satisfying filters).length →
      ∃ page, (NewWithRelationships (Open tbl.engine) nf rels).GetAll (some 1) (some 0) order
          filters = (page, none) ∧
        page.ResultCount = 1 ∧ page.TotalCount = ((tbl.satisfying filters).length : Int)) := by
  rw [GetAll_table] at h
  have hfind : tbl.findErr = none := by
    cases hf : tbl.findErr with
    | none => rfl
    | some e =>
      rw [hf] at h
      simp at h
  refine ⟨?_, ?_, ?_, ?_⟩
  · rw [hfind] at h
    simp only at h
    split_ifs at h with hz
    · simp at h
    · have h1 := (Prod.mk.inj h).1
      rw [← h1]
      exact ⟨_, rfl, rfl⟩
  · rw [hfind, hcount] at h
    simp only at h
    split_ifs at h with hz
    · simp at h
    · have h1 := (Prod.mk.inj h).1
      rw [← h1]
      simp only
      exact_mod_cast length_pageOf_le tbl limit offset order filters
  · rw [hfind, hcount] at h
    simp only at h
    split_ifs at h with hz
    · simp at h
    · have h1 := (Prod.mk.inj h).1
      rw [← h1]
  · intro _ hN
    have hlen : (tbl.pageOf (some 1) (some 0) order filters).length = 1 := by
      rw [pageOf_eq]
      simp only [Statement.page]
      have hs := (tbl.sort_perm order.toList (tbl.satisfying filters)).length_eq
      simp
      omega
    rw [GetAll_table, hfind, hcount]
    simp only [hlen]
    exact ⟨_, rfl, rfl, rfl⟩

/-- C4, amended, on the table of two records with the limit 1 and the offset 0. -/
theorem GetAll_counts_witness :
    (∃ l, (some [1] : Option (List Nat)) = some l ∧ (1 : Int) = (l.length : Int)) ∧
    (1 : Int) ≤ 2 ∧
    (2 : Int) = ((twoRows.satisfying []).length : Int) ∧
    (twoRows.findErr = none → 1 ≤ (twoRows.satisfying []).length →
      ∃ page, (NewWithRelationships (Open twoRows.engine) (Error.other "entity not found")
          []).GetAll (some 1) (some 0) none [] = (page, none) ∧
        page.ResultCount = 1 ∧ page.TotalCount = ((twoRows.satisfying []).length : Int)) :=
  GetAll_counts twoRows (Error.other "entity not found") [] (some 1) (some 0) none []
    { Items := some [1], TotalCount := 2, ResultCount := 1 } rfl (by decide)

/-- C5: for every table, filter map, limit, offset and order such that no
record satisfies the filters and Find does not fail, GetAll returns the
EntityNotFoundError with the message No entities found, and the ListItems
returned with it is the zero value: Items nil, TotalCount 0, ResultCount 0. -/
theorem GetAll_nothing_satisfies {T V : Type} (tbl : Table T V) (nf : Error)
    (rels : List String) (limit offset : Option Int) (order : Option String)
    (filters : filterType V) (hfind : tbl.findErr = none)
    (hzero : (tbl.satisfying filters).length = 0) :
    (NewWithRelationships (Open tbl.engine) nf rels).GetAll limit offset order filters =
      ({ Items := none, TotalCount := 0, ResultCount := 0 },
        some (Error.EntityNotFoundError "No entities found")) := by
  have hpage : (tbl.pageOf limit offset order filters).length = 0 :=
    Nat.le_zero.mp (hzero ▸ length_pageOf_le tbl limit offset order filters)
  rw [GetAll_table, hfind]
  simp only [hpage, if_true]

/-- C5, on the table without records. -/
theorem GetAll_nothing_satisfies_witness :
    (NewWithRelationships (Open noRows.engine) (Error.other "entity not found") []).GetAll
        none none none [] =
      ({ Items := none, TotalCount := 0, ResultCount := 0 },
        some (Error.EntityNotFoundError "No entities found")) :=
  GetAll_nothing_satisfies noRows (Error.other "entity not found") [] none none none [] rfl
    (by decide)

/-! ## Looking up one record -/

/-- C6, the code at the failing input: on a table without records, GetByID
with an id of dynamic type uint panics in the type assertion that builds the
message; with an id of dynamic type int it returns a nil record and an
EntityNotFoundError. -/
theorem GetByID_absent_record (n : Nat) (k : Int) :
    (New (Open noRows.engine) (Error.other "entity not found")).GetByID (Id.uint n) =
      Outcome.panicked "interface conversion: interface is not int" ∧
    (New (Open noRows.engine) (Error.other "entity not found")).GetByID (Id.int k) =
      Outcome.returned (none,
        some (Error.EntityNotFoundError ("No entity with id " ++ runeString k ++ " found"))) :=
  ⟨rfl, rfl⟩

/-- C7: for every engine and filter map, GetWithCustomFilters is decided by
GetAll with the limit 1, no offset and no order: when the total count of that
call is zero it returns a nil record and the EntityNotFoundError with the message
No entity found; otherwise that call succeeded with a page that has a first
item, and GetWithCustomFilters returns that item and a nil error.  The access to
the first item never panics. -/
theorem GetWithCustomFilters_of_GetAll {T V : Type} (r : BaseRepository T V)
    (filters : filterType V) :
    ((r.GetAll (some 1) none none filters).1.TotalCount = 0 →
      r.GetWithCustomFilters filters =
        Outcome.returned (none, some (Error.EntityNotFoundError "No entity found"))) ∧
    ((r.GetAll (some 1) none none filters).1.TotalCount ≠ 0 →
      ∃ first rest, (r.GetAll (some 1) none none filters).1.Items = some (first :: rest) ∧
        (r.GetAll (some 1) none none filters).2 = none ∧
        r.GetWithCustomFilters filters = Outcome.returned (some first, none)) ∧
    (∀ reason, r.GetWithCustomFilters filters ≠ Outcome.panicked reason) := by
  rcases GetAll_cases r (some 1) none none filters with ⟨e, h⟩ | ⟨first, rest, total, h⟩
  · simp [BaseRepository.GetWithCustomFilters, h]
  · simp only [BaseRepository.GetWithCustomFilters, h]
    refine ⟨?_, ?_, ?_⟩
    · intro h0
      simp [h0]
    · intro h0
      refine ⟨first, rest, ?_, ?_, ?_⟩ <;> simp [h0]
    · intro reason
      by_cases h0 : total = 0
      · simp [h0]
      · simp [h0]

/-- C7, on the table of two records: the first record is returned. -/
theorem GetWithCustomFilters_of_GetAll_witness :
    ∃ first rest,
      ((New (Open twoRows.engine) (Error.other "entity not found")).GetAll
        (some 1) none none [("ulid", "123")]).1.Items = some (first :: rest) ∧
      ((New (Open twoRows.engine) (Error.other "entity not found")).GetAll
        (some 1) none none [("ulid", "123")]).2 = none ∧
      (New (Open twoRows.engine) (Error.other "entity not found")).GetWithCustomFilters
        [("ulid", "123")] = Outcome.returned (some first, none) :=
  (GetWithCustomFilters_of_GetAll (New (Open twoRows.engine) (Error.other "entity not found"))
    [("ulid", "123")]).2.1 (by decide)

/-! ## NotFound and the page -/

/-- C10: on every table whose Find does not fail, GetAll returns an
EntityNotFoundError exactly when the page selected by the limit and the offset
is empty, whatever the number of records satisfying the filters: it does so
for every offset that is at least that number and for the limit 0, and on the
table of two records with the offset 2 it does so although two records
satisfy the filters.  Every successful GetAll, on every engine, has a
ResultCount of at least 1. -/
theorem GetAll_NotFound_iff_page_empty {T V : Type} (tbl : Table T V) (nf : Error)
    (rels : List String) (limit offset : Option Int) (order : Option String)
    (filters : filterType V) (hfind : tbl.findErr = none) :
    ((∃ m, ((NewWithRelationships (Open tbl.engine) nf rels).GetAll limit offset order
        filters).2 = some (Error.EntityNotFoundError m)) ↔
      tbl.pageOf limit offset order filters = []) ∧
    (∀ o : Int, ((tbl.satisfying filters).length : Int) ≤ o →
      (NewWithRelationships (Open tbl.engine) nf rels).GetAll limit (some o) order filters =
        ({}, some (Error.EntityNotFoundError "No entities found"))) ∧
    (NewWithRelationships (Open tbl.engine) nf rels).GetAll (some 0) offset order filters =
        ({}, some (Error.EntityNotFoundError "No entities found")) ∧
    (0 < (twoRows.satisfying []).length ∧
      (New (Open twoRows.engine) nf).GetAll none (some 2) none [] =
        ({}, some (Error.EntityNotFoundError "No entities found"))) ∧
    (∀ (r : BaseRepository T V) (items : ListItems T),
      r.GetAll limit offset order filters = (items, none) → 1 ≤ items.ResultCount) := by
  refine ⟨?_, ?_, ?_, ?_, ?_⟩
  · rw [GetAll_table, hfind]
    simp only
    by_cases hz : (tbl.pageOf limit offset order filters).length = 0
    · rw [if_pos hz]
      simp only [List.length_eq_zero] at hz
      simp [hz]
    · rw [if_neg hz]
      simp only [List.length_eq_zero] at hz
      simp [hz]
  · intro o ho
    have hpage : (tbl.pageOf limit (some o) order filters).length = 0 := by
      rw [pageOf_eq]
      have hs := (tbl.sort_perm order.toList (tbl.satisfying filters)).length_eq
      have hdrop : (if 0 < o then (tbl.sort order.toList (tbl.satisfying filters)).drop o.toNat
          else tbl.sort order.toList (tbl.satisfying filters)) = [] := by
        split_ifs with hpos
        · apply List.drop_eq_nil_of_le
          omega
        · apply List.eq_nil_of_length_eq_zero
          omega
      simp only [Statement.page, hdrop]
      cases limit with
      | none => rfl
      | some n =>
        simp only
        split_ifs <;> simp
    rw [GetAll_table, hfind]
    simp only [hpage, if_true]
  · have hpage : (tbl.pageOf (some 0) offset order filters).length = 0 := by
      rw [pageOf_eq]
      simp [Statement.page]
    rw [GetAll_table, hfind]
    simp only [hpage, if_true]
  · exact ⟨by decide, by
      cases nf <;> rfl⟩
  · intro r items h
    rcases GetAll_cases r limit offset order filters with ⟨e, he⟩ | ⟨first, rest, total, hs⟩
    · rw [he] at h
      simp at h
    · rw [hs] at h
      have h1 := (Prod.mk.inj h).1
      rw [← h1]
      simp only [List.length_cons]
      omega

/-- C10, on the table of two records with the offset 5: NotFound although two
records satisfy the filters. -/
theorem GetAll_NotFound_iff_page_empty_witness :
    (twoRows.satisfying []).length = 2 ∧
    (NewWithRelationships (Open twoRows.engine) (Error.other "entity not found") []).GetAll
        none (some 5) none [] =
      ({}, some (Error.EntityNotFoundError "No entities found")) :=
  ⟨by decide,
   (GetAll_NotFound_iff_page_empty twoRows (Error.other "entity not found") [] none none none
      [] rfl).2.1 5 (by decide)⟩

/-! ## Transactions -/

/-- C8: for every transaction engine and callback.  When Begin fails, its error
is returned whatever the callback is, which is never run.  When Begin succeeds
and the callback returns an error, the state afterwards is that of one Rollback
of the handle the callback left, and that error is returned; when the callback
returns nil, the state afterwards is that of one Commit, whose result is
returned.  On a database with snapshot transactions the calls made are, in this
order, Begin and Rollback with the rows unchanged in the first case, Begin and
Commit in the second, and Begin alone when Begin fails. -/
theorem PerformTransaction_ends_once {S X T : Type} (db : TxEngine S X)
    (fn : X → X × FnResult) (s : S) (work : List T → List T × FnResult) (st : Snapshot T)
    (commitErr : Option Error) :
    (∀ s1 tx e, db.Begin s = (s1, tx, some e) →
      ∀ other : X → X × FnResult,
        PerformTransaction db other s = (s1, Outcome.returned (some e))) ∧
    (∀ s1 tx tx1 err, db.Begin s = (s1, tx, none) →
      fn tx = (tx1, FnResult.returns (some err)) →
      PerformTransaction db fn s = (db.Rollback s1 tx1, Outcome.returned (some err))) ∧
    (∀ s1 tx tx1, db.Begin s = (s1, tx, none) → fn tx = (tx1, FnResult.returns none) →
      PerformTransaction db fn s =
        ((db.Commit s1 tx1).1, Outcome.returned (db.Commit s1 tx1).2)) ∧
    (∀ tx1 err, work st.rows = (tx1, FnResult.returns (some err)) →
      PerformTransaction (Snapshot.engine none commitErr) work st =
        ({ rows := st.rows, calls := st.calls ++ [TxCall.Begin, TxCall.Rollback] },
          Outcome.returned (some err))) ∧
    (∀ tx1, work st.rows = (tx1, FnResult.returns none) →
      PerformTransaction (Snapshot.engine none commitErr) work st =
        ({ rows := if commitErr = none then tx1 else st.rows,
           calls := st.calls ++ [TxCall.Begin, TxCall.Commit] },
          Outcome.returned commitErr)) ∧
    (∀ e, PerformTransaction (Snapshot.engine (some e) commitErr) work st =
        ({ rows := st.rows, calls := st.calls ++ [TxCall.Begin] },
          Outcome.returned (some e))) := by
  refine ⟨?_, ?_, ?_, ?_, ?_, ?_⟩
  · intro s1 tx e hb other
    simp only [PerformTransaction, hb]
  · intro s1 tx tx1 err hb hf
    simp only [PerformTransaction, hb, hf]
  · intro s1 tx tx1 hb hf
    simp only [PerformTransaction, hb, hf]
  · intro tx1 err hf
    simp [PerformTransaction, Snapshot.engine, hf]
  · intro tx1 hf
    cases commitErr <;> simp [PerformTransaction, Snapshot.engine, hf]
  · intro e
    simp [PerformTransaction, Snapshot.engine]

/-- C8, on the scenario of the test: the callback adds a record and returns an
error; the error is returned and the record is not among the rows afterwards. -/
theorem PerformTransaction_ends_once_witness :
    PerformTransaction (Snapshot.engine none none)
        (fun tx => (tx ++ ["InTransaction"], FnResult.returns (some (Error.other "simulated error"))))
        { rows := [], calls := [] } =
      ({ rows := [], calls := [TxCall.Begin, TxCall.Rollback] },
        Outcome.returned (some (Error.other "simulated error"))) :=
  (PerformTransaction_ends_once (Snapshot.engine none none)
    (fun tx => (tx ++ ["InTransaction"], FnResult.returns (some (Error.other "simulated error"))))
    { rows := [], calls := [] }
    (fun tx => (tx ++ ["InTransaction"], FnResult.returns (some (Error.other "simulated error"))))
    { rows := [], calls := [] } none).2.2.2.1 _ _ rfl

/-- C9, the code at the failing input: for every callback that panics, on a
database with snapshot transactions, the transaction is rolled back, and then
PerformTransaction returns normally with a nil error; the panic is not raised
again. -/
theorem PerformTransaction_panic_returns_nil {T : Type} (work : List T → List T)
    (value : String) (st : Snapshot T) (commitErr : Option Error) :
    PerformTransaction (Snapshot.engine none commitErr)
        (fun tx => (work tx, FnResult.panics value)) st =
      ({ rows := st.rows, calls := st.calls ++ [TxCall.Begin, TxCall.Rollback] },
        Outcome.returned none) := by
  simp [PerformTransaction, Snapshot.engine]

end xgor
